import Mathlib

set_option maxRecDepth 100000

/-!
Verification development for the YouTube playlist extractor CLI/MCP tool
(`src/Youtubelist_cli.ts`).  The TypeScript source is shallowly embedded:
strings are lists of characters, JavaScript `undefined`/missing fields are
`Option`, thrown exceptions are `Except`, and the paginated network API is
an explicit list of per-call results supplied as input.
-/

/-- Strings of the embedded program: JavaScript strings modelled as lists of
Unicode characters. -/
abbrev Str := List Char

/-- Characters matched by the regex character class `[a-zA-Z0-9_-]` used in
both playlist-id recognition patterns (src lines 114-117). -/
def isIdChar (c : Char) : Bool :=
  c.isAlphanum || c = '_' || c = '-'

/-- Test whether `lit` is an initial segment of `s` (the literal part of a
regex attempting to match at the current position). -/
def startsWithL : Str → Str → Bool
  | [], _ => true
  | _ :: _, [] => false
  | a :: as, b :: bs => a = b && startsWithL as bs

/-- Attempt the regex `<lit>([a-zA-Z0-9_-]+)` at the start of `s`: the match
succeeds when `s` begins with `lit` followed by at least one id character,
and the capture is the maximal run of id characters (greedy `+`). -/
def tryAt (lit : Str) (s : Str) : Option Str :=
  if startsWithL lit s then
    let cap := (s.drop lit.length).takeWhile isIdChar
    if cap.isEmpty then none else some cap
  else none

/-- JavaScript `String.prototype.match` for a pattern `<lit>([a-zA-Z0-9_-]+)`:
scan positions left to right and return the capture of the leftmost
successful match (src line 120, `url.match(pattern)`). -/
def findMatch (lit : Str) : Str → Option Str
  | [] => tryAt lit []
  | c :: cs =>
    match tryAt lit (c :: cs) with
    | some cap => some cap
    | none => findMatch lit cs

/-- Substring containment, as JavaScript `String.prototype.includes`
(src line 125, `url.includes('http')`). -/
def containsSub (needle : Str) : Str → Bool
  | [] => startsWithL needle []
  | c :: rest => startsWithL needle (c :: rest) || containsSub needle rest

/-- Literal part of the first recognition pattern `/list=([a-zA-Z0-9_-]+)/`
(src line 115). -/
def lit1 : Str := "list=".toList

/-- Literal part of the second recognition pattern
`/playlist\?list=([a-zA-Z0-9_-]+)/` (src line 116). -/
def lit2 : Str := "playlist?list=".toList

/-- Substring marker used by the fallback test (src line 125). -/
def httpLit : Str := "http".toList

/-- Embedding of `YouTubeExtractor.extractPlaylistId` (src lines 113-129):
try the two recognition patterns in order, returning the first capture;
otherwise accept the raw input verbatim when it is longer than 10
characters and does not contain `"http"`; otherwise return null. -/
def extractPlaylistId (url : Str) : Option Str :=
  match findMatch lit1 url with
  | some cap => some cap
  | none =>
    match findMatch lit2 url with
    | some cap => some cap
    | none =>
      if url.length > 10 && !(containsSub httpLit url) then some url
      else none

/-- Decide, for positions strictly inside `pre`, whether the pattern
`<lit>([a-zA-Z0-9_-]+)` matches somewhere in `pre ++ rest` starting at such
a position (the positions the regex scanner visits before the boundary). -/
def hasMatchBefore (lit : Str) : Str → Str → Bool
  | [], _ => false
  | c :: cs, rest => (tryAt lit (c :: (cs ++ rest))).isSome || hasMatchBefore lit cs rest

/-- Variant of the extractor stated from the claim: only the first
recognition pattern `list=<id>` is tried, followed by the bare-token
fallback; the second pattern is dropped. -/
def extractPlaylistIdFirstOnly (url : Str) : Option Str :=
  match findMatch lit1 url with
  | some cap => some cap
  | none =>
      if url.length > 10 && !(containsSub httpLit url) then some url
      else none

/-- Normalized video record produced by the fetcher (src lines 96-101). -/
structure VideoItem where
  title : Str
  url : Str
  video_id : Str
  published_at : Str
deriving DecidableEq

/-- Nested `snippet.resourceId` object of an API playlist item; the
`videoId` field may be absent (src line 151, optional chaining). -/
structure ResourceId where
  videoId : Option Str
deriving DecidableEq

/-- The `snippet` object of an API playlist item; every field may be absent
(src lines 148-157). -/
structure Snippet where
  title : Option Str
  resourceId : Option ResourceId
  publishedAt : Option Str
deriving DecidableEq

/-- One item of an API page response; `snippet` may be absent
(src lines 148-149). -/
structure PlaylistItem where
  snippet : Option Snippet
deriving DecidableEq

/-- The payload of one `playlistItems.list` response: an optional item
array (src line 146, `response.data.items || []`) and an optional
continuation token (src line 162). -/
structure ApiResponse where
  items : Option (List PlaylistItem)
  nextPageToken : Option Str
deriving DecidableEq

/-- JavaScript truthiness of an optional string: `undefined`/`null` and the
empty string are falsy, every other string truthy. -/
def jsTruthy (o : Option Str) : Bool :=
  match o with
  | none => false
  | some s => !s.isEmpty

/-- JavaScript `a || d` for an optional string `a`: the default is taken
when `a` is absent or empty (falsy). -/
def jsOr (o : Option Str) (d : Str) : Str :=
  match o with
  | none => d
  | some s => if s.isEmpty then d else s

/-- Processing of one playlist item in the fetch loop (src lines 147-160):
skip when the snippet is absent, resolve `snippet.resourceId?.videoId`,
skip when it is absent or falsy, otherwise build the record with its
defaulted fields. -/
def processItem (item : PlaylistItem) : Option VideoItem :=
  match item.snippet with
  | none => none
  | some sn =>
    match sn.resourceId with
    | none => none
    | some rid =>
      match rid.videoId with
      | none => none
      | some vid =>
        if vid.isEmpty then none
        else some
          { title := jsOr sn.title "Unknown".toList
            url := "https://www.youtube.com/watch?v=".toList ++ vid
            video_id := vid
            published_at := jsOr sn.publishedAt [] }

/-- Records contributed by one page: the items carrying a resolvable video
identifier, in item order. -/
def processPage (r : ApiResponse) : List VideoItem :=
  (r.items.getD []).filterMap processItem

/-- Error message wrapping of the fetch loop's catch clause (src line 172). -/
def wrapErr (e : Str) : Str := "YouTube API Error: ".toList ++ e

deriving instance DecidableEq for Except

/-- Result of one call to the external listing endpoint: a response, or a
thrown transport/API error. -/
abbrev FetchResult := Except Str ApiResponse

/-- The do-while body of `getPlaylistVideos` (src lines 138-167), driven by
the successive results of the API calls: accumulate the records of each
page, count one progress log per page whose response carries a truthy
continuation token, stop when the token is absent, and abort with a
wrapped error on the first failed call. -/
def getVideosLoop (videos : List VideoItem) (logs : Nat) :
    List FetchResult → Except Str (List VideoItem × Nat)
  | [] => Except.ok (videos, logs)
  | Except.error e :: _ => Except.error (wrapErr e)
  | Except.ok resp :: rest =>
    let videos2 := videos ++ (resp.items.getD []).filterMap processItem
    if jsTruthy resp.nextPageToken then getVideosLoop videos2 (logs + 1) rest
    else Except.ok (videos2, logs)

/-- Embedding of `YouTubeExtractor.getPlaylistVideos` (src lines 131-174):
the returned value is the accumulated record list paired with the number of
progress observations logged inside the loop. -/
def getPlaylistVideos (calls : List FetchResult) : Except Str (List VideoItem × Nat) :=
  getVideosLoop [] 0 calls

/-- Concrete playlist item with a resolvable video identifier, used by
concrete instantiations. -/
def itemA : PlaylistItem :=
  ⟨some ⟨some "A".toList, some ⟨some "idA".toList⟩, some "2024".toList⟩⟩

/-- Record produced from `itemA` by the fetch loop. -/
def recordA : VideoItem :=
  ⟨"A".toList, "https://www.youtube.com/watch?v=idA".toList, "idA".toList, "2024".toList⟩

/-- First page of the spec's two-page scenario: 50 items plus token T1. -/
def scenPage1 : ApiResponse := ⟨some (List.replicate 50 itemA), some "T1".toList⟩

/-- Second page of the spec's two-page scenario: 3 items, no token. -/
def scenPage2 : ApiResponse := ⟨some (List.replicate 3 itemA), none⟩

/-- Name of the single advertised tool (src lines 213 and 232). -/
def toolNameStr : Str := "get_playlist_videos".toList

/-- Numbered title/URL lines of the tool's success summary
(src lines 253-255). -/
def formatVideoLines (videos : List VideoItem) : Str :=
  (videos.enum.map fun p =>
    (Nat.repr (p.1 + 1)).toList ++ ". ".toList ++ p.2.title
      ++ " (".toList ++ p.2.url ++ ")\n".toList).flatten

/-- Human-readable summary returned by the tool (src lines 252-255). -/
def formatVideoSummary (videos : List VideoItem) : Str :=
  "Found ".toList ++ (Nat.repr videos.length).toList ++ " videos in playlist:\n".toList
    ++ formatVideoLines videos

/-- Embedding of the `CallToolRequestSchema` handler
(`MCPServerHandler.setupTools`, src lines 231-269): an unknown tool name is
a thrown protocol fault; a missing or falsy `playlist_url`, an
unresolvable playlist URL, and a failed fetch each produce a text payload
in a success-shaped response.  The fetch outcome is driven by the supplied
call results, as in `getPlaylistVideos`. -/
def handleCallTool (name : Str) (playlist_url : Option Str) (calls : List FetchResult) :
    Except Str Str :=
  if name = toolNameStr then
    if jsTruthy playlist_url then
      match extractPlaylistId (playlist_url.getD []) with
      | none => Except.ok "Error: Invalid playlist URL".toList
      | some _ =>
        match getPlaylistVideos calls with
        | Except.error e => Except.ok ("Error processing request: ".toList ++ e)
        | Except.ok (videos, _) => Except.ok (formatVideoSummary videos)
    else Except.ok "Error: playlist_url is required".toList
  else Except.error ("Tool not found: ".toList ++ name)

/-- Whether a handler outcome is a protocol-level fault (a thrown error)
rather than a success-shaped response. -/
def isFault (r : Except Str Str) : Bool :=
  match r with
  | Except.error _ => true
  | Except.ok _ => false

/-- Quote one CSV field as the `csv-stringify` library does: fields
containing a delimiter, quote or record separator are wrapped in double
quotes with embedded quotes doubled, all other fields are emitted raw. -/
def csvField (s : Str) : Str :=
  if s.any (fun c => c = ',' || c = '"' || c = '\n' || c = '\x0d') then
    '"' :: (s.map fun c => if c = '"' then ['"', '"'] else [c]).flatten ++ ['"']
  else s

/-- The `csv` export (src line 367, `stringify(videos, \x7b header: true \x7d)`):
a header row of the record keys followed by one row per record. -/
def renderCsvExport (videos : List VideoItem) : Str :=
  "title,url,video_id,published_at\n".toList
    ++ (videos.map fun v =>
        csvField v.title ++ ',' :: csvField v.url ++ ',' :: csvField v.video_id
          ++ ',' :: csvField v.published_at ++ ['\n']).flatten

/-- The `txt` (default) export (src line 371): one line per record of the
form `<title> - <url>`, joined with newlines. -/
def renderTxtExport (videos : List VideoItem) : Str :=
  List.intercalate "\n".toList (videos.map fun v => v.title ++ " - ".toList ++ v.url)

/-- Hexadecimal digit character for a value below 16, lowercase as
`JSON.stringify` emits it. -/
def hexDigitChar (n : Nat) : Char :=
  if n < 10 then Char.ofNat (48 + n) else Char.ofNat (87 + n)

/-- Escaping of one character inside a JSON string literal, as
`JSON.stringify` performs it: quote and backslash get a backslash escape,
the five short control escapes are used where they exist, the remaining
control characters become `\u00XX`, and every other character is emitted
verbatim. -/
def escapeChar (c : Char) : Str :=
  if c = '"' then ['\\', '"']
  else if c = '\\' then ['\\', '\\']
  else if c = '\x08' then ['\\', 'b']
  else if c = '\t' then ['\\', 't']
  else if c = '\n' then ['\\', 'n']
  else if c = '\x0c' then ['\\', 'f']
  else if c = '\x0d' then ['\\', 'r']
  else if c.toNat < 32 then
    ['\\', 'u', '0', '0', hexDigitChar (c.toNat / 16), hexDigitChar (c.toNat % 16)]
  else [c]

/-- Escaped body of a JSON string literal. -/
def escapeString (s : Str) : Str := (s.map escapeChar).flatten

/-- A JSON string literal: escaped body between double quotes. -/
def quoteJ (s : Str) : Str := '"' :: escapeString s ++ ['"']

/-- Four-space indentation of the records inside the exported array. -/
def ind1 : Str := List.replicate 4 ' '

/-- Eight-space indentation of the fields inside an exported record. -/
def ind2 : Str := List.replicate 8 ' '

/-- One `"key": "value"` line body of an exported record. -/
def renderField (key val : Str) : Str :=
  ind2 ++ '"' :: key ++ "\": ".toList ++ quoteJ val

/-- Body of one exported record after its opening brace: the four fields
in object-insertion order, comma-separated, then the closing brace at the
outer indentation. -/
def recordBody (v : VideoItem) : Str :=
  '\n' :: renderField "title".toList v.title ++ ",\n".toList
    ++ renderField "url".toList v.url ++ ",\n".toList
    ++ renderField "video_id".toList v.video_id ++ ",\n".toList
    ++ renderField "published_at".toList v.published_at
    ++ '\n' :: ind1 ++ ['\x7d']

/-- One exported record, indented as `JSON.stringify(videos, null, 4)`
renders an object nested in the array. -/
def renderRecordJson (v : VideoItem) : Str := ind1 ++ '\x7b' :: recordBody v

/-- The `json` export (src line 369, `JSON.stringify(videos, null, 4)`):
a pretty-printed array of record objects. -/
def renderJsonExport (videos : List VideoItem) : Str :=
  match videos with
  | [] => "[]".toList
  | v :: vs =>
    '[' :: '\n' :: renderRecordJson v
      ++ (vs.map fun w => ",\n".toList ++ renderRecordJson w).flatten
      ++ '\n' :: [']']

/-- Export dispatch of the CLI (src lines 365-372): `csv` and `json` are
recognized, every other format value falls through to the `txt` rendering
with no error raised. -/
def renderExport (videos : List VideoItem) (format : Str) : Str :=
  if format = "csv".toList then renderCsvExport videos
  else if format = "json".toList then renderJsonExport videos
  else renderTxtExport videos

/-- JSON insignificant whitespace. -/
def isJsonWs (c : Char) : Bool := c = ' ' || c = '\n' || c = '\t' || c = '\x0d'

/-- Drop leading JSON whitespace. -/
def skipWs (s : Str) : Str := s.dropWhile isJsonWs

/-- Value of one hexadecimal digit character. -/
def hexVal (c : Char) : Option Nat :=
  if '0' ≤ c ∧ c ≤ '9' then some (c.toNat - 48)
  else if 'a' ≤ c ∧ c ≤ 'f' then some (c.toNat - 87)
  else if 'A' ≤ c ∧ c ≤ 'F' then some (c.toNat - 55)
  else none

/-- Decoding of a single-character JSON escape sequence. -/
def escDecode (e : Char) : Option Char :=
  if e = '"' then some '"'
  else if e = '\\' then some '\\'
  else if e = '/' then some '/'
  else if e = 'b' then some '\x08'
  else if e = 'f' then some '\x0c'
  else if e = 'n' then some '\n'
  else if e = 'r' then some '\x0d'
  else if e = 't' then some '\t'
  else none

/-- Prepend a character to the string of a partial parse result. -/
def consFirst (c : Char) : Option (Str × Str) → Option (Str × Str)
  | some (s, r) => some (c :: s, r)
  | none => none

/-- Parse the body of a JSON string literal after its opening quote,
modelling `JSON.parse`: stop at the closing quote, decode backslash
escapes (including `\uXXXX`), reject raw control characters, and return
the decoded string together with the unconsumed input. -/
def parseStringBody : Str → Option (Str × Str)
  | [] => none
  | c :: rest =>
    if c = '"' then some ([], rest)
    else if c = '\\' then
      match rest with
      | [] => none
      | e :: rest2 =>
        if e = 'u' then
          match rest2 with
          | h1 :: h2 :: h3 :: h4 :: rest3 =>
            match hexVal h1, hexVal h2, hexVal h3, hexVal h4 with
            | some a, some b, some c2, some d =>
              consFirst (Char.ofNat (((a * 16 + b) * 16 + c2) * 16 + d))
                (parseStringBody rest3)
            | _, _, _, _ => none
          | _ => none
        else
          match escDecode e with
          | some c2 => consFirst c2 (parseStringBody rest2)
          | none => none
    else if c.toNat < 32 then none
    else consFirst c (parseStringBody rest)

/-- Parse a complete JSON string literal. -/
def parseJString : Str → Option (Str × Str)
  | '"' :: rest => parseStringBody rest
  | _ => none

/-- Consume one expected character. -/
def expectChar (c : Char) : Str → Option Str
  | d :: rest => if d = c then some rest else none
  | [] => none

/-- Parse one `"key": "value"` member whose key must equal `key`,
skipping surrounding whitespace. -/
def parseField (key : Str) (s : Str) : Option (Str × Str) :=
  match parseJString (skipWs s) with
  | none => none
  | some (k, s1) =>
    if k = key then
      match expectChar ':' (skipWs s1) with
      | none => none
      | some s2 => parseJString (skipWs s2)
    else none

/-- Parse one record object: the four string fields in the order
`JSON.stringify` emits them. -/
def parseRecordJ (s : Str) : Option (VideoItem × Str) :=
  (expectChar '\x7b' (skipWs s)).bind fun s1 =>
  (parseField "title".toList s1).bind fun ts =>
  (expectChar ',' (skipWs ts.2)).bind fun s3 =>
  (parseField "url".toList s3).bind fun us =>
  (expectChar ',' (skipWs us.2)).bind fun s5 =>
  (parseField "video_id".toList s5).bind fun vs =>
  (expectChar ',' (skipWs vs.2)).bind fun s7 =>
  (parseField "published_at".toList s7).bind fun ps =>
  (expectChar '\x7d' (skipWs ps.2)).bind fun s9 =>
  some (⟨ts.1, us.1, vs.1, ps.1⟩, s9)

/-- Parse the remaining elements of a record array after its first
element: a comma-led record repeatedly, until the closing bracket.
`fuel` bounds the recursion and is in practice at least the number of
remaining elements. -/
def parseMoreRecords : Nat → Str → Option (List VideoItem × Str)
  | 0, _ => none
  | fuel + 1, s =>
    match skipWs s with
    | ',' :: s2 =>
      (parseRecordJ s2).bind fun rs3 =>
      (parseMoreRecords fuel rs3.2).bind fun rss4 =>
      some (rs3.1 :: rss4.1, rss4.2)
    | ']' :: s2 => some ([], s2)
    | _ => none

/-- Parse a full exported document, modelling `JSON.parse` applied to the
`json` export shape: a whitespace-padded array of record objects, with
nothing but whitespace after the closing bracket. -/
def parseJsonRecords (s : Str) : Option (List VideoItem) :=
  (expectChar '[' (skipWs s)).bind fun s1 =>
    match skipWs s1 with
    | ']' :: s2 => if (skipWs s2).isEmpty then some [] else none
    | _ =>
      (parseRecordJ s1).bind fun rs2 =>
      (parseMoreRecords (rs2.2.length + 1) rs2.2).bind fun rss3 =>
      if (skipWs rss3.2).isEmpty then some (rs2.1 :: rss3.1) else none

theorem startsWithL_append_self (lit t : Str) : startsWithL lit (lit ++ t) = true := by
  induction lit with
  | nil => rfl
  | cons a as ih => simp [startsWithL, ih]

theorem tryAt_boundary (lit id post : Str) (hid : id ≠ [])
    (hmax : (id ++ post).takeWhile isIdChar = id) :
    tryAt lit (lit ++ (id ++ post)) = some id := by
  obtain ⟨a, as, rfl⟩ := List.exists_cons_of_ne_nil hid
  unfold tryAt
  rw [startsWithL_append_self]
  simp only [if_true]
  rw [List.drop_left, hmax]
  rfl

theorem findMatch_cons (lit : Str) (c : Char) (cs : Str) :
    findMatch lit (c :: cs) =
      match tryAt lit (c :: cs) with
      | some cap => some cap
      | none => findMatch lit cs := rfl

theorem findMatch_boundary (lit id post : Str) (hid : id ≠ [])
    (hmax : (id ++ post).takeWhile isIdChar = id) (hlit : lit ≠ []) :
    ∀ pre : Str, hasMatchBefore lit pre (lit ++ (id ++ post)) = false →
      findMatch lit (pre ++ (lit ++ (id ++ post))) = some id := by
  intro pre
  induction pre with
  | nil =>
    intro _
    obtain ⟨l, ls, rfl⟩ := List.exists_cons_of_ne_nil hlit
    rw [List.nil_append, List.cons_append, findMatch_cons, ← List.cons_append,
      tryAt_boundary _ _ _ hid hmax]
  | cons c cs ih =>
    intro hearly
    rw [hasMatchBefore, Bool.or_eq_false_iff] at hearly
    obtain ⟨h1, h2⟩ := hearly
    rw [List.cons_append, findMatch_cons]
    cases htr : tryAt lit (c :: (cs ++ (lit ++ (id ++ post)))) with
    | some v => rw [htr] at h1; simp at h1
    | none => exact ih h2

theorem tryAt_eq_none_of_not_starts (lit s : Str) (h : startsWithL lit s = false) :
    tryAt lit s = none := by
  simp [tryAt, h]

theorem findMatch_eq_none_of_not_contains (lit : Str) :
    ∀ s : Str, containsSub lit s = false → findMatch lit s = none := by
  intro s
  induction s with
  | nil =>
    intro h
    rw [containsSub] at h
    show tryAt lit [] = none
    exact tryAt_eq_none_of_not_starts _ _ h
  | cons c cs ih =>
    intro h
    rw [containsSub, Bool.or_eq_false_iff] at h
    rw [findMatch_cons, tryAt_eq_none_of_not_starts _ _ h.1]
    exact ih h.2

theorem startsWithL_append_split :
    ∀ (a b t : Str), startsWithL (a ++ b) t = true →
      startsWithL b (t.drop a.length) = true := by
  intro a
  induction a with
  | nil => intro b t h; exact h
  | cons x xs ih =>
    intro b t h
    cases t with
    | nil => exact absurd h (by simp [startsWithL])
    | cons y ys =>
      rw [List.cons_append, startsWithL, Bool.and_eq_true] at h
      exact ih b ys h.2

theorem tryAt_drop_of_findMatch_none (lit : Str) :
    ∀ (s : Str) (k : Nat), findMatch lit s = none → tryAt lit (s.drop k) = none := by
  intro s
  induction s with
  | nil =>
    intro k h
    rw [List.drop_nil]
    exact h
  | cons c cs ih =>
    intro k h
    rw [findMatch_cons] at h
    cases htr : tryAt lit (c :: cs) with
    | some v => rw [htr] at h; simp at h
    | none =>
      rw [htr] at h
      cases k with
      | zero => exact htr
      | succ k' => exact ih k' h

theorem findMatch_lit2_none : ∀ s : Str, findMatch lit1 s = none → findMatch lit2 s = none := by
  have hdec : lit2 = "playlist?".toList ++ lit1 := by decide
  have hl1 : lit1.length = 5 := by decide
  have hl2 : lit2.length = 14 := by decide
  intro s
  induction s with
  | nil =>
    intro _
    show tryAt lit2 [] = none
    exact tryAt_eq_none_of_not_starts _ _ (by decide)
  | cons c cs ih =>
    intro h
    rw [findMatch_cons] at h ⊢
    cases htr : tryAt lit1 (c :: cs) with
    | some v => rw [htr] at h; simp at h
    | none =>
      rw [htr] at h
      have htry2 : tryAt lit2 (c :: cs) = none := by
        cases hs : startsWithL lit2 (c :: cs) with
        | false => exact tryAt_eq_none_of_not_starts _ _ hs
        | true =>
          have hs1 : startsWithL lit1 ((c :: cs).drop 9) = true := by
            have := startsWithL_append_split "playlist?".toList lit1 (c :: cs)
              (by rw [← hdec]; exact hs)
            simpa using this
          have hnone : tryAt lit1 ((c :: cs).drop 9) = none :=
            tryAt_drop_of_findMatch_none lit1 (c :: cs) 9 (by rw [findMatch_cons, htr]; exact h)
          unfold tryAt at hnone ⊢
          rw [hs1] at hnone
          rw [hs]
          simp only [if_true] at hnone ⊢
          rw [hl1, List.drop_drop] at hnone
          rw [hl2]
          by_cases hcap : (((c :: cs).drop 14).takeWhile isIdChar).isEmpty
          · simp only [hcap]
            rfl
          · rw [if_neg (by simpa using hcap)] at hnone
            exact absurd hnone (by simp)
      rw [htry2]
      exact ih h

/-- C2 (amended): when the leftmost occurrence of `list=` followed by an id
character in the input is the one at the boundary `pre ++ "list=" ++ id`,
and `id` is the maximal id-character run there, extraction returns `id`. -/
theorem extract_list_param (pre id post : Str) (hid : id ≠ [])
    (_hchars : ∀ c ∈ id, isIdChar c = true)
    (hmax : (id ++ post).takeWhile isIdChar = id)
    (hearly : hasMatchBefore lit1 pre (lit1 ++ (id ++ post)) = false) :
    extractPlaylistId (pre ++ (lit1 ++ (id ++ post))) = some id := by
  have h := findMatch_boundary lit1 id post hid hmax (by decide) pre hearly
  unfold extractPlaylistId
  rw [h]

/-- C2 witness: the spec's scenario input yields the identifier `PL123`. -/
theorem extract_list_param_witness :
    extractPlaylistId "https://www.youtube.com/playlist?list=PL123".toList
      = some "PL123".toList := by
  have h := extract_list_param "https://www.youtube.com/playlist?".toList
    "PL123".toList [] (by decide) (by decide) (by decide) (by decide)
  have e : "https://www.youtube.com/playlist?".toList ++ (lit1 ++ ("PL123".toList ++ ([] : Str)))
      = "https://www.youtube.com/playlist?list=PL123".toList := by decide
  rw [e] at h
  exact h

/-- C2 counterexample: the input contains `list=PL123` as a query parameter
(preceded by `&`), yet extraction returns `abc`, the capture of the earlier
substring occurrence of `list=` inside `alist=abc`. -/
theorem list_param_counterexample :
    containsSub "&list=PL123".toList "https://www.youtube.com/?alist=abc&list=PL123".toList = true
    ∧ extractPlaylistId "https://www.youtube.com/?alist=abc&list=PL123".toList
        = some "abc".toList
    ∧ "abc".toList ≠ "PL123".toList :=
  ⟨by decide, by decide, by decide⟩

/-- C4: a bare token — one containing no `list=` marker, so neither
recognition pattern can match — longer than 10 characters and containing no
`http` substring is returned unchanged by the fallback. -/
theorem bare_token_id (s : Str) (hlen : s.length > 10)
    (hhttp : containsSub httpLit s = false)
    (hbare : containsSub lit1 s = false) :
    extractPlaylistId s = some s := by
  have h1 : findMatch lit1 s = none := findMatch_eq_none_of_not_contains lit1 s hbare
  have h2 : findMatch lit2 s = none := findMatch_lit2_none s h1
  unfold extractPlaylistId
  rw [h1, h2, if_pos]
  rw [Bool.and_eq_true, Bool.not_eq_true', hhttp]
  exact ⟨decide_eq_true hlen, rfl⟩

/-- C4 witness: a 13-character raw playlist id is accepted verbatim. -/
theorem bare_token_id_witness :
    "PLabcdefghijk".toList.length > 10
    ∧ containsSub httpLit "PLabcdefghijk".toList = false
    ∧ containsSub lit1 "PLabcdefghijk".toList = false
    ∧ extractPlaylistId "PLabcdefghijk".toList = some "PLabcdefghijk".toList :=
  ⟨by decide, by decide, by decide,
    bare_token_id "PLabcdefghijk".toList (by decide) (by decide) (by decide)⟩

/-- C5: a token of at most 10 characters containing no `list=` occurrence
is rejected: extraction returns null. -/
theorem short_token_none (s : Str) (hlen : s.length ≤ 10)
    (hbare : containsSub lit1 s = false) :
    extractPlaylistId s = none := by
  have h1 : findMatch lit1 s = none := findMatch_eq_none_of_not_contains lit1 s hbare
  have h2 : findMatch lit2 s = none := findMatch_lit2_none s h1
  unfold extractPlaylistId
  rw [h1, h2, if_neg]
  rw [Bool.and_eq_true]
  intro hc
  exact absurd (of_decide_eq_true hc.1) (Nat.not_lt.mpr hlen)

/-- C5 witness: the 3-character token `abc` yields no identifier. -/
theorem short_token_none_witness :
    "abc".toList.length ≤ 10
    ∧ containsSub lit1 "abc".toList = false
    ∧ extractPlaylistId "abc".toList = none :=
  ⟨by decide, by decide, short_token_none "abc".toList (by decide) (by decide)⟩

/-- C10: the second recognition pattern never determines the result — the
extractor agrees with the variant that uses only the first pattern plus the
fallback, on every input. -/
theorem second_pattern_redundant (url : Str) :
    extractPlaylistId url = extractPlaylistIdFirstOnly url := by
  unfold extractPlaylistId extractPlaylistIdFirstOnly
  cases h : findMatch lit1 url with
  | some cap => rfl
  | none => rw [findMatch_lit2_none url h]

theorem getVideosLoop_pages (last : ApiResponse)
    (hlast : jsTruthy last.nextPageToken = false) :
    ∀ (init : List ApiResponse), (∀ r ∈ init, jsTruthy r.nextPageToken = true) →
      ∀ (acc : List VideoItem) (logs : Nat),
        getVideosLoop acc logs ((init ++ [last]).map Except.ok) =
          Except.ok (acc ++ ((init ++ [last]).map processPage).flatten, logs + init.length) := by
  intro init
  induction init with
  | nil =>
    intro _ acc logs
    simp [getVideosLoop, hlast, processPage]
  | cons r rs ih =>
    intro hinit acc logs
    have hr : jsTruthy r.nextPageToken = true := hinit r (by simp)
    simp only [List.cons_append, List.map_cons, getVideosLoop, hr, if_true, List.append_eq]
    rw [ih (fun x hx => hinit x (by simp [hx])) _ (logs + 1)]
    simp [processPage, List.append_assoc]
    omega

/-- C1: over a run of pages where every page but the last carries a truthy
continuation token and the last does not, the fetch returns exactly the
concatenation, in page-then-item order, of each page's items that carry a
resolvable video identifier — items lacking a snippet or a video id are
skipped, and no error is raised. -/
theorem fetch_all_pages (init : List ApiResponse) (last : ApiResponse)
    (hinit : ∀ r ∈ init, jsTruthy r.nextPageToken = true)
    (hlast : jsTruthy last.nextPageToken = false) :
    getPlaylistVideos ((init ++ [last]).map Except.ok) =
      Except.ok (((init ++ [last]).map processPage).flatten, init.length) := by
  have h := getVideosLoop_pages last hlast init hinit [] 0
  simpa [getPlaylistVideos] using h

/-- C1 witness: a two-page run whose first page also contains a
snippet-less item; the skipped item produces no record and no error. -/
theorem fetch_all_pages_witness :
    getPlaylistVideos [Except.ok ⟨some [itemA, ⟨none⟩], some "T1".toList⟩,
        Except.ok ⟨some [itemA], none⟩] =
      Except.ok ([recordA, recordA], 1) := by
  have h := fetch_all_pages [⟨some [itemA, ⟨none⟩], some "T1".toList⟩]
    ⟨some [itemA], none⟩ (by decide) (by decide)
  exact h.trans (by decide)

/-- C3 counterexample: on the spec's two-page scenario the fetch returns 53
records but logs exactly one progress observation, not two — the count is
logged only after a page whose response carries a continuation token. -/
theorem two_page_log_counterexample :
    (getPlaylistVideos [Except.ok scenPage1, Except.ok scenPage2]).map
        (fun p => (p.1.length, p.2)) = Except.ok ((53 : Nat), (1 : Nat))
    ∧ (1 : Nat) ≠ 2 :=
  ⟨by decide, by decide⟩

theorem length_filterMap_of_isSome {α β : Type} (f : α → Option β) :
    ∀ l : List α, (∀ x ∈ l, (f x).isSome = true) → (l.filterMap f).length = l.length := by
  intro l
  induction l with
  | nil => intro _; rfl
  | cons x xs ih =>
    intro h
    have hx := h x (by simp)
    obtain ⟨b, hb⟩ := Option.isSome_iff_exists.mp hx
    rw [List.filterMap_cons, hb, List.length_cons, List.length_cons,
      ih (fun y hy => h y (by simp [hy]))]

/-- C3 (amended): a two-page fetch whose first page carries 50 valid items
and a truthy continuation token and whose second page carries 3 valid items
and no token returns 53 records and emits exactly one progress observation
(one per page whose response carries a continuation token). -/
theorem two_page_scenario (items1 items2 : List PlaylistItem) (t : Str)
    (ht : t.isEmpty = false)
    (h1 : ∀ it ∈ items1, (processItem it).isSome = true)
    (h2 : ∀ it ∈ items2, (processItem it).isSome = true)
    (hl1 : items1.length = 50) (hl2 : items2.length = 3) :
    (getPlaylistVideos [Except.ok ⟨some items1, some t⟩, Except.ok ⟨some items2, none⟩]).map
        (fun p => (p.1.length, p.2)) = Except.ok ((53 : Nat), (1 : Nat)) := by
  simp only [getPlaylistVideos, getVideosLoop, jsTruthy, ht, Bool.not_false, if_true,
    Option.getD_some, List.nil_append, Bool.false_eq_true, if_false, Except.map,
    List.length_append]
  rw [length_filterMap_of_isSome _ _ h1, length_filterMap_of_isSome _ _ h2, hl1, hl2]

/-- C3 witness: the amended scenario evaluated on concrete pages of 50 and
3 valid items. -/
theorem two_page_scenario_witness :
    "T1".toList.isEmpty = false
    ∧ (getPlaylistVideos [Except.ok ⟨some (List.replicate 50 itemA), some "T1".toList⟩,
          Except.ok ⟨some (List.replicate 3 itemA), none⟩]).map
        (fun p => (p.1.length, p.2)) = Except.ok ((53 : Nat), (1 : Nat)) :=
  ⟨by decide,
    two_page_scenario _ _ _ (by decide) (by decide) (by decide) (by decide) (by decide)⟩

theorem getVideosLoop_error (e : Str) (rest : List FetchResult) :
    ∀ (init : List ApiResponse), (∀ r ∈ init, jsTruthy r.nextPageToken = true) →
      ∀ (acc : List VideoItem) (logs : Nat),
        getVideosLoop acc logs (init.map Except.ok ++ Except.error e :: rest) =
          Except.error (wrapErr e) := by
  intro init
  induction init with
  | nil => intro _ acc logs; rfl
  | cons r rs ih =>
    intro hinit acc logs
    have hr : jsTruthy r.nextPageToken = true := hinit r (by simp)
    simp only [List.map_cons, List.cons_append, getVideosLoop, hr, if_true]
    exact ih (fun x hx => hinit x (by simp [hx])) _ _

/-- C8: the first failed API call aborts the whole fetch: whatever pages
were accumulated before it, the result is a single error wrapping the
original message and carries no partial record sequence. -/
theorem fetch_error_aborts (init : List ApiResponse) (e : Str) (rest : List FetchResult)
    (hinit : ∀ r ∈ init, jsTruthy r.nextPageToken = true) :
    getPlaylistVideos (init.map Except.ok ++ Except.error e :: rest) =
      Except.error (wrapErr e) :=
  getVideosLoop_error e rest init hinit [] 0

/-- C8 witness: a page of records is fetched, then the second call fails;
the result is only the wrapped error. -/
theorem fetch_error_aborts_witness :
    getPlaylistVideos [Except.ok ⟨some [itemA], some "T1".toList⟩,
        Except.error "boom".toList] =
      Except.error "YouTube API Error: boom".toList := by
  have h := fetch_error_aborts [⟨some [itemA], some "T1".toList⟩] "boom".toList []
    (by decide)
  exact h.trans (by decide)

theorem handleCallTool_no_fault (args : Option Str) (calls : List FetchResult) :
    isFault (handleCallTool toolNameStr args calls) = false := by
  unfold handleCallTool
  rw [if_pos rfl]
  cases h : jsTruthy args with
  | false => simp [isFault]
  | true =>
    simp only [if_true]
    cases hx : extractPlaylistId (args.getD []) with
    | none => rfl
    | some pid =>
      cases hg : getPlaylistVideos calls with
      | error e => rfl
      | ok p => cases p; rfl

/-- C9: the tool handler throws a protocol-level fault exactly when the
requested tool name differs from `get_playlist_videos`; the three
application-level failures — missing url, unresolvable url, failed fetch —
each yield a text-wrapped error message in a success-shaped response. -/
theorem tool_app_errors_textual (name : Str) (args : Option Str) (calls : List FetchResult)
    (badUrl : Str) (hbadne : badUrl.isEmpty = false)
    (hbad : extractPlaylistId badUrl = none)
    (goodUrl pid : Str) (hgood : extractPlaylistId goodUrl = some pid)
    (e : Str) (he : getPlaylistVideos calls = Except.error e) :
    isFault (handleCallTool name args calls) = decide (name ≠ toolNameStr)
    ∧ handleCallTool toolNameStr none calls
        = Except.ok "Error: playlist_url is required".toList
    ∧ handleCallTool toolNameStr (some badUrl) calls
        = Except.ok "Error: Invalid playlist URL".toList
    ∧ handleCallTool toolNameStr (some goodUrl) calls
        = Except.ok ("Error processing request: ".toList ++ e) := by
  have hgoodne : goodUrl.isEmpty = false := by
    cases goodUrl with
    | nil => rw [show extractPlaylistId [] = none from by decide] at hgood; cases hgood
    | cons a as => rfl
  refine ⟨?_, ?_, ?_, ?_⟩
  · by_cases h : name = toolNameStr
    · subst h
      rw [handleCallTool_no_fault, decide_eq_false (by simp)]
    · unfold handleCallTool
      rw [if_neg h, decide_eq_true h]
      rfl
  · simp [handleCallTool, jsTruthy]
  · simp [handleCallTool, jsTruthy, hbadne, hbad]
  · simp [handleCallTool, jsTruthy, hgoodne, hgood, he]

/-- C9 witness: concrete unknown tool name, short invalid url, the spec's
scenario url, and a failing first API call. -/
theorem tool_app_errors_textual_witness :
    "short".toList.isEmpty = false
    ∧ extractPlaylistId "short".toList = none
    ∧ extractPlaylistId "https://www.youtube.com/playlist?list=PL999".toList
        = some "PL999".toList
    ∧ getPlaylistVideos [Except.error "boom".toList]
        = Except.error "YouTube API Error: boom".toList
    ∧ isFault (handleCallTool "other_tool".toList none [Except.error "boom".toList])
        = decide ("other_tool".toList ≠ toolNameStr)
    ∧ handleCallTool toolNameStr (some "short".toList) [Except.error "boom".toList]
        = Except.ok "Error: Invalid playlist URL".toList :=
  ⟨by decide, by decide, by decide, by decide,
    (tool_app_errors_textual "other_tool".toList none [Except.error "boom".toList]
      "short".toList (by decide) (by decide)
      "https://www.youtube.com/playlist?list=PL999".toList "PL999".toList (by decide)
      "YouTube API Error: boom".toList (by decide)).1,
    (tool_app_errors_textual "other_tool".toList none [Except.error "boom".toList]
      "short".toList (by decide) (by decide)
      "https://www.youtube.com/playlist?list=PL999".toList "PL999".toList (by decide)
      "YouTube API Error: boom".toList (by decide)).2.2.1⟩

/-- C7: every format value other than `csv` and `json` produces exactly the
`txt` output — one `<title> - <url>` line per record — with no error. -/
theorem unknown_format_txt (videos : List VideoItem) (format : Str)
    (h1 : format ≠ "csv".toList) (h2 : format ≠ "json".toList) :
    renderExport videos format
      = List.intercalate "\n".toList
          (videos.map fun v => v.title ++ " - ".toList ++ v.url) := by
  unfold renderExport renderTxtExport
  rw [if_neg h1, if_neg h2]

/-- C7 witness: the unrecognized format `xml` renders the txt line of a
concrete record. -/
theorem unknown_format_txt_witness :
    "xml".toList ≠ "csv".toList ∧ "xml".toList ≠ "json".toList
    ∧ renderExport [recordA] "xml".toList
        = "A - https://www.youtube.com/watch?v=idA".toList :=
  ⟨by decide, by decide,
    (unknown_format_txt [recordA] "xml".toList (by decide) (by decide)).trans (by decide)⟩

example : parseJsonRecords (renderJsonExport []) = some [] := by decide

example : parseJsonRecords (renderJsonExport [recordA, recordA]) = some [recordA, recordA] := by
  decide

example : parseJsonRecords (renderJsonExport [⟨"a\"b\\c\n\x01".toList, [], [], []⟩])
    = some [⟨"a\"b\\c\n\x01".toList, [], [], []⟩] := by decide

theorem skipWs_cons_ws (c : Char) (x : Str) (h : isJsonWs c = true) :
    skipWs (c :: x) = skipWs x := by
  simp [skipWs, List.dropWhile, h]

theorem skipWs_cons_not (c : Char) (x : Str) (h : isJsonWs c = false) :
    skipWs (c :: x) = c :: x := by
  simp [skipWs, List.dropWhile, h]

theorem skipWs_ws_append (w : Str) (hw : ∀ c ∈ w, isJsonWs c = true) (x : Str) :
    skipWs (w ++ x) = skipWs x := by
  induction w with
  | nil => rfl
  | cons c cs ih =>
    rw [List.cons_append, skipWs_cons_ws c _ (hw c (by simp))]
    exact ih (fun d hd => hw d (by simp [hd]))

theorem hexVal_hexDigitChar : ∀ n, n < 16 → hexVal (hexDigitChar n) = some n := by decide

theorem psb_quote (rest : Str) : parseStringBody ('"' :: rest) = some ([], rest) := by
  rw [parseStringBody.eq_def]
  simp

theorem psb_esc (e c : Char) (rest : Str) (he : escDecode e = some c) (hne : e ≠ 'u') :
    parseStringBody ('\\' :: e :: rest) = consFirst c (parseStringBody rest) := by
  rw [parseStringBody.eq_def]
  simp [if_neg hne, he]

theorem psb_u (h1 h2 h3 h4 : Char) (rest : Str) (a b c2 d : Nat)
    (ha : hexVal h1 = some a) (hb : hexVal h2 = some b)
    (hc : hexVal h3 = some c2) (hd : hexVal h4 = some d) :
    parseStringBody ('\\' :: 'u' :: h1 :: h2 :: h3 :: h4 :: rest)
      = consFirst (Char.ofNat (((a * 16 + b) * 16 + c2) * 16 + d)) (parseStringBody rest) := by
  rw [parseStringBody.eq_def]
  simp [ha, hb, hc, hd]

theorem psb_plain (c : Char) (rest : Str) (h1 : c ≠ '"') (h2 : c ≠ '\\')
    (h3 : ¬ c.toNat < 32) :
    parseStringBody (c :: rest) = consFirst c (parseStringBody rest) := by
  rw [parseStringBody.eq_def]
  simp [if_neg h1, if_neg h2, if_neg h3]

theorem parseStringBody_escape : ∀ (s rest : Str),
    parseStringBody (escapeString s ++ '"' :: rest) = some (s, rest) := by
  intro s
  induction s with
  | nil =>
    intro rest
    show parseStringBody (escapeString [] ++ '"' :: rest) = some ([], rest)
    rw [show escapeString [] = [] from rfl, List.nil_append, psb_quote]
  | cons c cs ih =>
    intro rest
    have hes : escapeString (c :: cs) = escapeChar c ++ escapeString cs := by
      simp [escapeString]
    rw [hes, List.append_assoc]
    by_cases h1 : c = '"'
    · subst h1
      rw [show escapeChar '"' = ['\\', '"'] from by decide]
      rw [List.cons_append, List.cons_append, List.nil_append,
        psb_esc '"' '"' _ (by decide) (by decide), ih rest]
      rfl
    by_cases h2 : c = '\\'
    · subst h2
      rw [show escapeChar '\\' = ['\\', '\\'] from by decide]
      rw [List.cons_append, List.cons_append, List.nil_append,
        psb_esc '\\' '\\' _ (by decide) (by decide), ih rest]
      rfl
    by_cases h3 : c = '\x08'
    · subst h3
      rw [show escapeChar '\x08' = ['\\', 'b'] from by decide]
      rw [List.cons_append, List.cons_append, List.nil_append,
        psb_esc 'b' '\x08' _ (by decide) (by decide), ih rest]
      rfl
    by_cases h4 : c = '\t'
    · subst h4
      rw [show escapeChar '\t' = ['\\', 't'] from by decide]
      rw [List.cons_append, List.cons_append, List.nil_append,
        psb_esc 't' '\t' _ (by decide) (by decide), ih rest]
      rfl
    by_cases h5 : c = '\n'
    · subst h5
      rw [show escapeChar '\n' = ['\\', 'n'] from by decide]
      rw [List.cons_append, List.cons_append, List.nil_append,
        psb_esc 'n' '\n' _ (by decide) (by decide), ih rest]
      rfl
    by_cases h6 : c = '\x0c'
    · subst h6
      rw [show escapeChar '\x0c' = ['\\', 'f'] from by decide]
      rw [List.cons_append, List.cons_append, List.nil_append,
        psb_esc 'f' '\x0c' _ (by decide) (by decide), ih rest]
      rfl
    by_cases h7 : c = '\x0d'
    · subst h7
      rw [show escapeChar '\x0d' = ['\\', 'r'] from by decide]
      rw [List.cons_append, List.cons_append, List.nil_append,
        psb_esc 'r' '\x0d' _ (by decide) (by decide), ih rest]
      rfl
    by_cases h8 : c.toNat < 32
    · rw [escapeChar, if_neg h1, if_neg h2, if_neg h3, if_neg h4, if_neg h5, if_neg h6,
        if_neg h7, if_pos h8]
      have hhi : c.toNat / 16 < 16 := by omega
      have hlo : c.toNat % 16 < 16 := by omega
      simp only [List.cons_append, List.nil_append]
      rw [psb_u _ _ _ _ _ 0 0 (c.toNat / 16) (c.toNat % 16) (by decide) (by decide)
        (hexVal_hexDigitChar _ hhi) (hexVal_hexDigitChar _ hlo)]
      have hv : ((0 * 16 + 0) * 16 + c.toNat / 16) * 16 + c.toNat % 16 = c.toNat := by omega
      rw [hv, Char.ofNat_toNat, ih rest]
      rfl
    · rw [escapeChar, if_neg h1, if_neg h2, if_neg h3, if_neg h4, if_neg h5, if_neg h6,
        if_neg h7, if_neg h8]
      simp only [List.cons_append, List.nil_append]
      rw [psb_plain c _ h1 h2 h8, ih rest]
      rfl

theorem parseJString_cons_quote (x : Str) : parseJString ('"' :: x) = parseStringBody x := rfl

theorem parseJString_quote (s rest : Str) :
    parseJString (quoteJ s ++ rest) = some (s, rest) := by
  have e : quoteJ s ++ rest = '"' :: (escapeString s ++ '"' :: rest) := by
    simp [quoteJ]
  rw [e, parseJString_cons_quote, parseStringBody_escape]

theorem parseField_at (key val : Str) (hk : escapeString key = key) (w rest : Str)
    (hw : ∀ c ∈ w, isJsonWs c = true) :
    parseField key (w ++ (renderField key val ++ rest)) = some (val, rest) := by
  have hind2 : ∀ c ∈ ind2, isJsonWs c = true := by decide
  have e1 : w ++ (renderField key val ++ rest)
      = w ++ (ind2 ++ ('"' :: (key ++ ('"' :: ':' :: ' ' :: (quoteJ val ++ rest))))) := by
    simp [renderField, List.append_assoc]
  rw [e1]
  unfold parseField
  rw [skipWs_ws_append w hw, skipWs_ws_append ind2 hind2, skipWs_cons_not _ _ (by decide)]
  have e3 : parseJString ('"' :: (key ++ ('"' :: ':' :: ' ' :: (quoteJ val ++ rest))))
      = some (key, ':' :: ' ' :: (quoteJ val ++ rest)) := by
    rw [parseJString_cons_quote]
    conv_lhs => rw [← hk]
    exact parseStringBody_escape key _
  rw [e3]
  simp only [if_pos rfl]
  rw [skipWs_cons_not _ _ (by decide)]
  have e4 : expectChar ':' (':' :: ' ' :: (quoteJ val ++ rest)) = some (' ' :: (quoteJ val ++ rest)) := by
    simp [expectChar]
  rw [e4]
  simp only [if_true]
  show parseJString (skipWs (' ' :: (quoteJ val ++ rest))) = some (val, rest)
  rw [skipWs_cons_ws _ _ (by decide)]
  have e5 : skipWs (quoteJ val ++ rest) = quoteJ val ++ rest := by
    have : quoteJ val ++ rest = '"' :: (escapeString val ++ '"' :: rest) := by simp [quoteJ]
    rw [this, skipWs_cons_not _ _ (by decide)]
  rw [e5, parseJString_quote]

theorem parseField_nl (key val : Str) (hk : escapeString key = key) (rest : Str) :
    parseField key ('\n' :: (renderField key val ++ rest)) = some (val, rest) := by
  have h := parseField_at key val hk ['\n'] rest (by decide)
  simpa using h

theorem expectChar_cons_self (c : Char) (x : Str) : expectChar c (c :: x) = some x := by
  simp [expectChar]

theorem parseRecordJ_at (v : VideoItem) (w rest : Str) (hw : ∀ c ∈ w, isJsonWs c = true) :
    parseRecordJ (w ++ ('\x7b' :: (recordBody v ++ rest))) = some (v, rest) := by
  have hb : ∀ c ∈ ind1, isJsonWs c = true := by decide
  have e0 : recordBody v ++ rest
      = '\n' :: (renderField "title".toList v.title
          ++ (',' :: ('\n' :: (renderField "url".toList v.url
          ++ (',' :: ('\n' :: (renderField "video_id".toList v.video_id
          ++ (',' :: ('\n' :: (renderField "published_at".toList v.published_at
          ++ ('\n' :: (ind1 ++ ('\x7d' :: rest))))))))))))) := by
    simp [recordBody, List.append_assoc]
  unfold parseRecordJ
  rw [skipWs_ws_append w hw, skipWs_cons_not _ _ (by decide), expectChar_cons_self]
  rw [Option.some_bind, e0, parseField_nl _ _ (by decide), Option.some_bind]
  rw [skipWs_cons_not _ _ (by decide), expectChar_cons_self]
  rw [Option.some_bind, parseField_nl _ _ (by decide), Option.some_bind]
  rw [skipWs_cons_not _ _ (by decide), expectChar_cons_self]
  rw [Option.some_bind, parseField_nl _ _ (by decide), Option.some_bind]
  rw [skipWs_cons_not _ _ (by decide), expectChar_cons_self]
  rw [Option.some_bind, parseField_nl _ _ (by decide), Option.some_bind]
  rw [skipWs_cons_ws _ _ (by decide), skipWs_ws_append ind1 hb,
    skipWs_cons_not _ _ (by decide), expectChar_cons_self]
  rw [Option.some_bind]

theorem flatten_sep_length (vs : List VideoItem) :
    vs.length ≤ ((vs.map fun w => ",\n".toList ++ renderRecordJson w).flatten).length := by
  induction vs with
  | nil => simp
  | cons w ws ih =>
    simp only [List.map_cons, List.flatten_cons, List.length_append, List.length_cons]
    have h2 : (",\n".toList).length = 2 := by decide
    omega

theorem parseMoreRecords_render (vs : List VideoItem) :
    ∀ (fuel : Nat), vs.length + 1 ≤ fuel → ∀ s : Str,
      parseMoreRecords fuel
          ((vs.map fun w => ",\n".toList ++ renderRecordJson w).flatten ++ '\n' :: ']' :: s)
        = some (vs, s) := by
  induction vs with
  | nil =>
    intro fuel hf s
    obtain ⟨f, rfl⟩ : ∃ f, fuel = f + 1 := ⟨fuel - 1, by omega⟩
    rw [parseMoreRecords]
    simp only [List.map_nil, List.flatten_nil, List.nil_append]
    rw [skipWs_cons_ws _ _ (by decide), skipWs_cons_not _ _ (by decide)]
    simp
  | cons w ws ih =>
    intro fuel hf s
    obtain ⟨f, rfl⟩ : ∃ f, fuel = f + 1 := ⟨fuel - 1, by omega⟩
    simp only [List.length_cons] at hf
    have e1 : ((w :: ws).map fun r => ",\n".toList ++ renderRecordJson r).flatten
          ++ '\n' :: ']' :: s
        = ',' :: (('\n' :: ind1)
            ++ ('\x7b' :: (recordBody w
            ++ ((ws.map fun r => ",\n".toList ++ renderRecordJson r).flatten
                ++ '\n' :: ']' :: s)))) := by
      simp [renderRecordJson, List.append_assoc]
    have hrec := parseRecordJ_at w ('\n' :: ind1)
      ((ws.map fun r => ",\n".toList ++ renderRecordJson r).flatten ++ '\n' :: ']' :: s)
      (by decide)
    have hmore := ih f (by omega) s
    rw [parseMoreRecords, e1]
    rw [skipWs_cons_not _ _ (by decide)]
    simp at hrec hmore
    simp [hrec, hmore]

/-- C6 helper: parsing the rendered json export returns exactly the record
sequence, fields and order preserved. -/
theorem json_parse_render (videos : List VideoItem) :
    parseJsonRecords (renderJsonExport videos) = some videos := by
  cases videos with
  | nil => decide
  | cons v vs =>
    have hb : ∀ c ∈ ind1, isJsonWs c = true := by decide
    have e1 : renderJsonExport (v :: vs)
        = '[' :: ('\n' :: (ind1
            ++ ('\x7b' :: (recordBody v
            ++ ((vs.map fun r => ",\n".toList ++ renderRecordJson r).flatten
                ++ '\n' :: ']' :: ([] : Str)))))) := by
      simp [renderJsonExport, renderRecordJson, List.append_assoc]
    have hfuel : vs.length + 1
        ≤ ((vs.map fun r => ",\n".toList ++ renderRecordJson r).flatten
            ++ '\n' :: ']' :: ([] : Str)).length + 1 := by
      have := flatten_sep_length vs
      simp only [List.length_append, List.length_cons]
      omega
    have hrec := parseRecordJ_at v ('\n' :: ind1)
      ((vs.map fun r => ",\n".toList ++ renderRecordJson r).flatten
        ++ '\n' :: ']' :: ([] : Str)) (by decide)
    have hmore := parseMoreRecords_render vs _ hfuel []
    rw [e1]
    unfold parseJsonRecords
    rw [skipWs_cons_not _ _ (by decide), expectChar_cons_self, Option.some_bind]
    rw [skipWs_cons_ws _ _ (by decide), skipWs_ws_append ind1 hb,
      skipWs_cons_not _ _ (by decide)]
    simp at hrec hmore
    simp [hrec, hmore, skipWs]

/-- C6: for every record sequence, rendering with the `json` export and
parsing the text back yields a record sequence equal to the input in both
field values and order. -/
theorem json_export_roundtrip (videos : List VideoItem) :
    parseJsonRecords (renderExport videos "json".toList) = some videos := by
  have e : renderExport videos "json".toList = renderJsonExport videos := by
    unfold renderExport
    rw [if_neg (by decide), if_pos rfl]
  rw [e, json_parse_render]

example : extractPlaylistId "https://www.youtube.com/playlist?list=PL123".toList
    = some "PL123".toList := by decide

example : extractPlaylistId "https://www.youtube.com/?alist=abc&list=PL123".toList
    = some "abc".toList := by decide

example : extractPlaylistId "PLabcdefghijk".toList = some "PLabcdefghijk".toList := by
  decide

example : extractPlaylistId "abc".toList = none := by decide
